import Mathlib

/-!
Verification of the multi-agent SDR pipeline orchestration core.

The development embeds the two pipeline stage controllers
(`app/routers/lead_ingestion_agent.py` and `app/routers/lead_scoring_agent.py`)
as Lean functions: the scoring stage's structured-output extraction
(greedy first-brace-to-last-brace scan followed by a JSON parse), the
website content tool, the trigger endpoints, and the envelope publication.
The JSON value model covers null, booleans, integers, strings, arrays and
objects; this is the subset of JSON the pipeline schema uses (fractional
and exponent numbers and unicode escape sequences are outside the model:
the embedded parser rejects them rather than misreading them).

External collaborators are parameters, exactly as the specification
scopes them: the reasoning service's reply is a string argument, the
HTML-to-visible-text conversion of BeautifulSoup is a function argument,
and the HTTP fetch result is a value of `FetchOutcome`.
-/

/-! ## Characters and decimal digits -/

def isWsChar (c : Char) : Bool :=
  c.toNat = 32 || c.toNat = 10 || c.toNat = 9 || c.toNat = 13

def skipWs : List Char → List Char
  | [] => []
  | c :: cs => if isWsChar c then skipWs cs else c :: cs

def isDigitC (c : Char) : Bool := 48 ≤ c.toNat && c.toNat ≤ 57

def digitsToNat (ds : List Char) : Nat := ds.foldl (fun a c => a * 10 + (c.toNat - 48)) 0

def digitChar (n : Nat) : Char := Char.ofNat (48 + n)

def natToCharsAux : Nat → Nat → List Char → List Char
  | 0, _, acc => acc
  | f + 1, n, acc =>
    if n < 10 then digitChar n :: acc
    else natToCharsAux f (n / 10) (digitChar (n % 10) :: acc)

/-- Decimal digit rendering of a natural number, as `json.dumps` prints it. -/
def natToChars (n : Nat) : List Char := natToCharsAux (n + 1) n []

/-- A character that needs no escaping inside a JSON string literal. -/
def plainChar (c : Char) : Bool := c != '"' && c != '\\' && decide (32 ≤ c.toNat)

def plainStr (s : String) : Bool := s.data.all plainChar

/-! ## JSON data model -/

/-- JSON values as Python's `json.loads` materialises them (integers only:
the pipeline schema has no fractional numbers). -/
inductive Json where
  | null
  | bool (b : Bool)
  | num (n : Int)
  | str (s : String)
  | arr (elems : List Json)
  | obj (members : List (String × Json))

/-- Python-dict key lookup: the later of two duplicate keys wins. -/
def lookupLast (kvs : List (String × Json)) (k : String) : Option Json :=
  match kvs with
  | [] => none
  | (k1, v) :: rest =>
    match lookupLast rest k with
    | some r => some r
    | none => if k1 == k then some v else none

def isStrJson : Json → Bool
  | Json.str _ => true
  | _ => false

/-- The `ScoreResult` schema of the specification: `score` an integer in
[0,100], `next_step` one of the two enumerated literals, `talking_points`
a sequence of at least three strings. -/
def scoreResultValid (j : Json) : Bool :=
  match j with
  | Json.obj kvs =>
    (match lookupLast kvs "score" with
     | some (Json.num n) => decide (0 ≤ n ∧ n ≤ 100)
     | _ => false)
    && (match lookupLast kvs "next_step" with
        | some (Json.str s) => s == "Nurture" || s == "Actively Engage"
        | _ => false)
    && (match lookupLast kvs "talking_points" with
        | some (Json.arr xs) => decide (3 ≤ xs.length) && xs.all isStrJson
        | _ => false)
  | _ => false

/-- A `ScoreResult` value in the shape the scoring stage prompts for. -/
def scoreObj (s : Nat) (ns : String) (tps : List String) : Json :=
  Json.obj [("score", Json.num s), ("next_step", Json.str ns),
            ("talking_points", Json.arr (tps.map Json.str))]

/-- Serialised talking points, comma separated as in the specification's
worked scenario. -/
def serTpListCh : List String → List Char
  | [] => []
  | [t] => '"' :: t.data ++ ['"']
  | t :: ts => '"' :: t.data ++ '"' :: ',' :: serTpListCh ts

/-- Serialised `ScoreResult` object text, following the specification's
worked scenario layout. -/
def serScoreCh (s : Nat) (ns : String) (tps : List String) : List Char :=
  ['\x7b', '"', 's', 'c', 'o', 'r', 'e', '"', ':', ' '] ++ natToChars s
  ++ [',', ' ', '"', 'n', 'e', 'x', 't', '_', 's', 't', 'e', 'p', '"', ':', ' ', '"'] ++ ns.data
  ++ ['"', ',', ' ', '"', 't', 'a', 'l', 'k', 'i', 'n', 'g', '_', 'p', 'o', 'i', 'n', 't', 's',
      '"', ':', ' ', '['] ++ serTpListCh tps
  ++ [']', '\x7d']

def serScore (s : Nat) (ns : String) (tps : List String) : String :=
  String.mk (serScoreCh s ns tps)

/-! ## JSON parser (`json.loads`)

Recursive-descent parser over the character list, fuel-indexed so that
every recursion is structural. Restricted to the JSON subset of the data
model: fractional and exponent numbers and `\u` escapes are rejected. -/

def parseDigits (cs : List Char) : Option (Nat × List Char) :=
  let ds := cs.takeWhile isDigitC
  let rest := cs.dropWhile isDigitC
  if ds = [] then none
  else if 1 < ds.length && ds.headD ' ' == '0' then none
  else match rest with
       | c :: _ =>
         if c == '.' || c == 'e' || c == 'E' then none
         else some (digitsToNat ds, rest)
       | [] => some (digitsToNat ds, rest)

/-- The two-character escape sequences of JSON strings, keyed by the code
point after the backslash: quote (34), backslash (92), slash (47), and
the letters n, t, r, b, f for newline, tab, carriage return, backspace
and form feed. A `\u` sequence is outside the modelled subset. -/
def unescapeChar (c : Char) : Option Char :=
  match c.toNat with
  | 34 => some c
  | 92 => some c
  | 47 => some c
  | 110 => some (Char.ofNat 10)
  | 116 => some (Char.ofNat 9)
  | 114 => some (Char.ofNat 13)
  | 98 => some (Char.ofNat 8)
  | 102 => some (Char.ofNat 12)
  | _ => none

def parseStrChars : List Char → Option (List Char × List Char)
  | [] => none
  | c :: cs =>
    if c == '"' then some ([], cs)
    else if c == '\\' then
      match cs with
      | [] => none
      | e :: cs2 =>
        match unescapeChar e with
        | some d =>
          match parseStrChars cs2 with
          | some (l, r) => some (d :: l, r)
          | none => none
        | none => none
    else if c.toNat < 32 then none
    else
      match parseStrChars cs with
      | some (l, r) => some (c :: l, r)
      | none => none

mutual
def parseValue : Nat → List Char → Option (Json × List Char)
  | 0, _ => none
  | fuel + 1, cs =>
    match skipWs cs with
    | [] => none
    | c :: cs1 =>
      if c == '\x7b' then
        match skipWs cs1 with
        | [] => none
        | c2 :: cs2 =>
          if c2 == '\x7d' then some (Json.obj [], cs2)
          else
            match parseMembers fuel (c2 :: cs2) with
            | some (kvs, r) => some (Json.obj kvs, r)
            | none => none
      else if c == '[' then
        match skipWs cs1 with
        | [] => none
        | c2 :: cs2 =>
          if c2 == ']' then some (Json.arr [], cs2)
          else
            match parseElems fuel (c2 :: cs2) with
            | some (vs, r) => some (Json.arr vs, r)
            | none => none
      else if c == '"' then
        match parseStrChars cs1 with
        | some (l, r) => some (Json.str (String.mk l), r)
        | none => none
      else if c == 't' then
        match cs1 with
        | 'r' :: 'u' :: 'e' :: r => some (Json.bool true, r)
        | _ => none
      else if c == 'f' then
        match cs1 with
        | 'a' :: 'l' :: 's' :: 'e' :: r => some (Json.bool false, r)
        | _ => none
      else if c == 'n' then
        match cs1 with
        | 'u' :: 'l' :: 'l' :: r => some (Json.null, r)
        | _ => none
      else if c == '-' then
        match parseDigits cs1 with
        | some (n, r) => some (Json.num (-(n : Int)), r)
        | none => none
      else if isDigitC c then
        match parseDigits (c :: cs1) with
        | some (n, r) => some (Json.num (n : Int), r)
        | none => none
      else none

def parseMembers : Nat → List Char → Option (List (String × Json) × List Char)
  | 0, _ => none
  | fuel + 1, cs =>
    match skipWs cs with
    | [] => none
    | c :: cs1 =>
      if c == '"' then
        match parseStrChars cs1 with
        | some (k, cs2) =>
          match skipWs cs2 with
          | [] => none
          | c2 :: cs3 =>
            if c2 == ':' then
              match parseValue fuel cs3 with
              | some (v, cs4) =>
                match skipWs cs4 with
                | [] => none
                | c3 :: cs5 =>
                  if c3 == ',' then
                    match parseMembers fuel cs5 with
                    | some (kvs, r) => some ((String.mk k, v) :: kvs, r)
                    | none => none
                  else if c3 == '\x7d' then some ([(String.mk k, v)], cs5)
                  else none
              | none => none
            else none
        | none => none
      else none

def parseElems : Nat → List Char → Option (List Json × List Char)
  | 0, _ => none
  | fuel + 1, cs =>
    match parseValue fuel cs with
    | some (v, cs2) =>
      match skipWs cs2 with
      | [] => none
      | c :: cs3 =>
        if c == ',' then
          match parseElems fuel cs3 with
          | some (vs, r) => some (v :: vs, r)
          | none => none
        else if c == ']' then some ([v], cs3)
        else none
    | none => none
end

/-- `json.loads`: parse one JSON document; trailing non-whitespace is an
error (Python raises `JSONDecodeError`, modelled as `none`). -/
def json_loads (s : String) : Option Json :=
  match parseValue (2 * s.data.length + 2) s.data with
  | some (v, rest) => if (skipWs rest).isEmpty then some v else none
  | none => none

/-! ## The greedy brace span of `re.search` -/

/-- Keep everything up to and including the last closing brace. -/
def upToLastRBrace (cs : List Char) : List Char :=
  (cs.reverse.dropWhile (fun c => c != '\x7d')).reverse

/-- `re.search(r"\x7b.*\x7d", content, re.DOTALL)`: the match, when one
exists, runs from the first opening brace to the last closing brace of the
whole text (`.*` is greedy and crosses newlines under DOTALL). -/
def jsonSpanChars (cs : List Char) : Option (List Char) :=
  match cs.dropWhile (fun c => c != '\x7b') with
  | [] => none
  | c :: rest => if rest.contains '\x7d' then some (upToLastRBrace (c :: rest)) else none

def jsonSpan (s : String) : Option String :=
  match jsonSpanChars s.data with
  | some l => some (String.mk l)
  | none => none

/-! ## Message bus adapter and topics

The topic name constants live in `app/utils/constants.py`, outside the
inspected sources; the specification records only that they are named
constants, so each is modelled as an abstract distinct string. -/

def LEAD_SCORING_AGENT_OUTPUT_TOPIC : String := "LEAD_SCORING_AGENT_OUTPUT_TOPIC"

def LEAD_INGESTION_AGENT_OUTPUT_TOPIC : String := "LEAD_INGESTION_AGENT_OUTPUT_TOPIC"

structure Envelope where
  topic : String
  payload : Json

/-- Modelled from the spec: `produce` (in `app/utils/publish_to_topic.py`,
not among the inspected sources) is the thin fire-and-forget publish
interface `publish(topic, payload)`; the envelope it hands to the bus is
the observable effect. -/
def produce (topic : String) (payload : Json) : Envelope := ⟨topic, payload⟩

/-! ## Scoring stage controller -/

/-- What one detached scoring run does after the reasoning service
replies: publish, drop after logging, or die on an uncaught exception. -/
inductive ScoringOutcome where
  | published (topic : String) (payload : Json)
  | noJsonLogged
  | uncaughtException

namespace LeadScoring

/-- `start_agent_flow` of `lead_scoring_agent.py`, lines 88-101, from the
point where the reasoning service's final message text `modelOutput` is in
hand: `re.search(r"\x7b.*\x7d", ...)`, then `json.loads` on the matched
span (no schema validation), then `produce`; a missing match is logged and
dropped; a `json.loads` failure raises out of the detached task. -/
def start_agent_flow (lead_details : Json) (modelOutput : String) : ScoringOutcome :=
  match jsonSpan modelOutput with
  | some json_str =>
    match json_loads json_str with
    | some lead_evaluation =>
      let env := produce LEAD_SCORING_AGENT_OUTPUT_TOPIC
        (Json.obj [("lead_evaluation", lead_evaluation), ("lead_data", lead_details)])
      ScoringOutcome.published env.topic env.payload
    | none => ScoringOutcome.uncaughtException
  | none => ScoringOutcome.noJsonLogged

end LeadScoring

/-! ## Ingestion stage controller -/

namespace LeadIngestion

/-- `start_agent_flow` of `lead_ingestion_agent.py`, lines 330-337, from
the point where the reasoning service's final message text is in hand: the
text is published verbatim as `content` together with the lead record. -/
def start_agent_flow (lead_details : Json) (modelOutput : String) : Envelope :=
  produce LEAD_INGESTION_AGENT_OUTPUT_TOPIC
    (Json.obj [("content", Json.str modelOutput), ("lead_data", lead_details)])

end LeadIngestion

/-! ## Website content tool -/

/-- Result of `requests.get`: a response carrying a status code and body,
or a raised `requests.RequestException` (connection error, timeout, ...). -/
inductive FetchOutcome where
  | ok (status_code : Nat) (text : String)
  | exn

/-- `str.splitlines` modelled on newline characters (the embedding treats
`\n` as the line boundary). Splitting alone keeps a final empty piece. -/
def splitLinesCh : List Char → List (List Char)
  | [] => [[]]
  | c :: cs =>
    match splitLinesCh cs with
    | [] => [[c]]
    | l :: ls => if c = '\n' then [] :: l :: ls else (c :: l) :: ls

/-- Python's `splitlines`: no piece after a trailing newline, and the
empty string has no lines. -/
def pySplitlines (cs : List Char) : List (List Char) :=
  match cs with
  | [] => []
  | _ :: _ =>
    let ps := splitLinesCh cs
    if ps.getLast? = some [] then ps.dropLast else ps

/-- `"\n".join(...)`. -/
def joinLinesCh : List (List Char) → List Char
  | [] => []
  | [l] => l
  | l :: l2 :: ls => l ++ '\n' :: joinLinesCh (l2 :: ls)

/-- `remove_empty_lines` of `lead_ingestion_agent.py`, lines 50-52:
`"\n".join(line for line in text.splitlines() if line.strip())`. A line
survives exactly when it has a non-whitespace character. -/
def remove_empty_lines (text : String) : String :=
  String.mk (joinLinesCh ((pySplitlines text.data).filter (fun l => l.any (fun c => !c.isWhitespace))))

/-- `get_company_website_information` of `lead_ingestion_agent.py`, lines
54-99. The fetch boundary and BeautifulSoup's visible-text conversion
(`soup.getText()` after extracting style/script/head/title) are external
collaborators, passed as arguments. A `RequestException` is caught and
yields `None`; any status other than exactly 200 yields `None`. -/
def get_company_website_information (soupGetText : String → String)
    (fetched : FetchOutcome) : Option String :=
  match fetched with
  | FetchOutcome.ok status_code text =>
    if status_code = 200 then some (remove_empty_lines (soupGetText text))
    else none
  | FetchOutcome.exn => none

/-- Every line of the string contains a non-whitespace character. -/
def linesAllNonBlank (s : String) : Bool :=
  (pySplitlines s.data).all (fun l => l.any (fun c => !c.isWhitespace))

/-! ## Trigger endpoints -/

structure HttpResp where
  content : String
  media_type : String
  status_code : Nat

def dictGet (d : List (String × Json)) (k : String) (dflt : Json) : Json :=
  match lookupLast d k with
  | some v => v
  | none => dflt

/-- Python's `value.get(k, dflt)` where `value` may be any JSON value: on
a mapping it looks the key up, on anything else the attribute access
raises (`none`). -/
def jsonGetOrRaise (j : Json) (k : String) (dflt : Json) : Option Json :=
  match j with
  | Json.obj kvs => some (dictGet kvs k dflt)
  | _ => none

/-- Per-item work of the scoring endpoint's POST loop, lines 111-120:
`item.get('lead_data', \x7b\x7d).get('lead', \x7b\x7d)` and
`item.get('content', "")`, which become the arguments of the detached
`start_agent_flow` task. -/
def scoringItemTask (item : List (String × Json)) : Option (Json × Json) :=
  match jsonGetOrRaise (dictGet item "lead_data" (Json.obj [])) "lead" (Json.obj []) with
  | some lead_details => some (lead_details, dictGet item "content" (Json.str ""))
  | none => none

/-- The hard-coded local-testing item of `lead_scoring_agent.py`, line 124. -/
def scoringTestContent : String :=
  "\x3d\x3d\x3d\x3d\x3d\x3d\x3d\x3d\x3d\x3d\x3d\x3d\x3d\x3d\x3d\x3d\x3d\x3d\x3d\x3d\x3d\x3d\x3d\x3d\x3d\x3d\x3d\x3d\x3d\x3d\x3d\x3d\x3d\x3d Ai Message \x3d\x3d\x3d\x3d\x3d\x3d\x3d\x3d\x3d\x3d\x3d\x3d\x3d\x3d\x3d\x3d\x3d\x3d\x3d\x3d\x3d\x3d\x3d\x3d\x3d\x3d\x3d\x3d\x3d\x3d\x3d\x3d\x3d\x3d\n\nComprehensive Research Report for Tiger Analytics Lead\n\n1. Industry Overview:\n- Industry: Data & Analytics, Enterprise Software\n- Market Trends:\n  - Increasing demand for real-time analytics and AI-driven insights\n  - Growing emphasis on multi-cloud and flexible data infrastructure\n  - Rising importance of AI/ML integration in data platforms\n\n2. Company Insights:\n- Company Size: 350 employees\n- Annual Revenue: $25M-$50M\n- Funding: $45M (Series A in 2022)\n- Key Technologies: Snowflake, AWS, Apache Spark, Databricks, Tableau, BigQuery\n- Strategic Focus:\n  - AI and analytics consulting\n  - Multi-industry solutions (CPG, Retail, BFS, Insurance, etc.)\n  - Strong partnerships with cloud and data platform providers\n\n3. Potential Use Cases for StratusAI Warehouse:\n- Real-time Data Ingestion: Support for streaming data crucial for their analytics services\n- Multi-Cloud Deployment: Aligns with their existing multi-cloud technology stack\n- AI/ML Integration: Native support for ML model hosting matches their AI engineering capabilities\n- Data Sharing: Potential for monetizing client data through secure data exchange\n- Compliance: Built-in governance features for various industry regulations\n\n4. Lead Quality Assessment:\n- Engagement Signals: \n  - Attended AI-focused webinar\n  - Actively exploring data warehouse alternatives\n  - Current pain point: scalability of existing Snowflake setup\n- Fit Score: High\n  - Director-level technical decision-maker\n  - Company focused on data and AI solutions\n  - Demonstrated interest in advanced data infrastructure\n\n5. Additional Insights:\n- Current Tech Stack Compatibility: StratusAI Warehouse can seamlessly integrate with existing tools\n- Growth Potential: Company experiencing 20% YoY growth, indicating investment in technology\n- Key Decision-Makers to Engage:\n  - Michael Rodriguez (CEO)\n  - Sarah Chen (CTO)\n  - Jane Doe (Primary Contact)\n\n6. Recommended Outreach Strategy:\n- Personalized demo highlighting real-time analytics and AI integration\n- Case studies showcasing multi-cloud flexibility\n- Technical deep dive on query optimization and cost management\n- Emphasize seamless migration from Snowflake\n\n7. Potential Challenges:\n- Existing strong relationships with cloud providers\n- Potential resistance to changing current data infrastructure\n- Need to demonstrate clear ROI and performance improvements\n\nRecommendation: Priority Lead - Pursue with tailored, technical engagement strategy focusing on AI capabilities and multi-cloud flexibility."

def scoringTestItem : List (String × Json) :=
  [("lead_data", Json.obj [("lead", Json.obj [
      ("project_description", Json.str "111 Looking for a scalable data warehouse solution to support real-time analytics and AI-driven insights. Currently using Snowflake but exploring alternatives that better integrate with streaming data."),
      ("company_name", Json.str "Tiger Analytics"),
      ("company_website", Json.str "https://www.tigeranalytics.com/"),
      ("lead_source", Json.str "Webinar - AI for Real-Time Data"),
      ("name", Json.str "Jane Doe"),
      ("job_title", Json.str "Director of Data Engineering"),
      ("email", Json.str "jane.doe@acmeanalytics.com")])]),
   ("content", Json.str scoringTestContent)]

/-- `lead_scoring_agent` endpoint, lines 103-131. The second component
lists the `(lead_details, content)` argument pairs of the detached
`start_agent_flow` tasks the request spawns; the tasks run after the
response is already sent and cannot influence it. `none` is an uncaught
exception while handling the request (no "Started" response). -/
def lead_scoring_agent (isPost : Bool) (data : List (List (String × Json))) :
    Option (HttpResp × List (Json × Json)) :=
  if isPost then
    match data.mapM scoringItemTask with
    | some tasks => some (⟨"Lead Scoring Agent Started", "text/plain", 200⟩, tasks)
    | none => none
  else
    match scoringItemTask scoringTestItem with
    | some task => some (⟨"Lead Scoring Agent Started", "text/plain", 200⟩, [task])
    | none => none

/-- Per-item work of the ingestion endpoint's POST loop, lines 347-350:
only `item.get('fullDocument', \x7b\x7d).get('_id', '\x7b\x7d')` is read;
no task is created (the body is a TODO in the source). -/
def ingestionItemOid (item : List (String × Json)) : Option Json :=
  jsonGetOrRaise (dictGet item "fullDocument" (Json.obj [])) "_id" (Json.str "\x7b\x7d")

/-- The hard-coded local-testing lead of `lead_ingestion_agent.py`,
lines 354-364. -/
def ingestionTestLead : Json :=
  Json.obj [("lead", Json.obj [
    ("name", Json.str "Jane Doe"),
    ("email", Json.str "jane.doe@acmeanalytics.com"),
    ("company_name", Json.str "Tiger Analytics"),
    ("company_website", Json.str "https://www.tigeranalytics.com/"),
    ("lead_source", Json.str "Webinar - AI for Real-Time Data"),
    ("job_title", Json.str "Director of Data Engineering"),
    ("project_description", Json.str "Looking for a scalable data warehouse solution to support real-time analytics and AI-driven insights. Currently using Snowflake but exploring alternatives that better integrate with streaming data.")])]

/-- `lead_ingestion_agent` endpoint, lines 339-368. On POST the per-item
loop reads an identifier and starts nothing; only the non-POST
local-testing branch spawns a `start_agent_flow` task, with the
hard-coded lead. The second component lists the leads handed to spawned
tasks. -/
def lead_ingestion_agent (isPost : Bool) (data : List (List (String × Json))) :
    Option (HttpResp × List Json) :=
  if isPost then
    match data.mapM ingestionItemOid with
    | some _ => some (⟨"Lead Ingestion Agent Started", "text/plain", 200⟩, [])
    | none => none
  else
    some (⟨"Lead Ingestion Agent Started", "text/plain", 200⟩, [ingestionTestLead])

/-! ## Reasoning agent loop

Modelled from the spec: the Reasoning Agent Loop itself (`create_react_agent`
of langgraph, invoked at `lead_ingestion_agent.py` line 284 and
`lead_scoring_agent.py` line 52) is not among the repository sources; §4.2
describes it as a two-state machine over the conversational history with a
design-required maximum iteration count whose exhaustion is a reported
failure. -/

inductive AgentRole where
  | system
  | user
  | assistant
  | tool

structure AgentMessage where
  role : AgentRole
  content : String

structure ToolRequest where
  tool_name : String
  arguments : String

structure ToolResult where
  content : String
  ok : Bool

/-- One reasoning-service reply: a final textual answer, or one or more
tool-invocation requests. -/
inductive SvcResponse where
  | finalAnswer (text : String)
  | toolCalls (reqs : List ToolRequest)

inductive LoopFailure where
  | iterationCapExceeded

/-- Modelled from the spec (§4.2): the tool-call/response cycle. Each
iteration invokes the reasoning service with the full history; a final
answer ends the loop, tool requests are dispatched in request order and
appended as tool-role messages; an exhausted iteration cap is the reported
failure `iterationCapExceeded`, never a silent answer. -/
def runReasoningLoop (svc : List AgentMessage → SvcResponse)
    (dispatch : ToolRequest → ToolResult) : Nat → List AgentMessage → Except LoopFailure String
  | 0, _ => Except.error LoopFailure.iterationCapExceeded
  | cap + 1, hist =>
    match svc hist with
    | SvcResponse.finalAnswer t => Except.ok t
    | SvcResponse.toolCalls reqs =>
      runReasoningLoop svc dispatch cap
        (hist ++ reqs.map (fun r => ⟨AgentRole.tool, (dispatch r).content⟩))

/-- Number of reasoning-service invocations a loop run performs. -/
def loopServiceCalls (svc : List AgentMessage → SvcResponse)
    (dispatch : ToolRequest → ToolResult) : Nat → List AgentMessage → Nat
  | 0, _ => 0
  | cap + 1, hist =>
    match svc hist with
    | SvcResponse.finalAnswer _ => 1
    | SvcResponse.toolCalls reqs =>
      1 + loopServiceCalls svc dispatch cap
        (hist ++ reqs.map (fun r => ⟨AgentRole.tool, (dispatch r).content⟩))

/-- The scoring-stage model output of the specification's failing
scenario: syntactically valid JSON whose `score` is the string
"not-a-number". -/
def notANumOutput : String :=
  "\x7b\"score\": \"not-a-number\", \"next_step\": \"Nurture\", \"talking_points\": [\"a\",\"b\",\"c\"]\x7d"

/-- The `lead_evaluation` value `json.loads` recovers from
`notANumOutput`. -/
def notANumEvaluation : Json :=
  Json.obj [("score", Json.str "not-a-number"), ("next_step", Json.str "Nurture"),
            ("talking_points", Json.arr [Json.str "a", Json.str "b", Json.str "c"])]

/-! ## Theorems -/

/-- C3: for every reasoning service - including an adversarial one that
requests a tool call on every invocation - the Reasoning Agent Loop makes
at most `cap` service invocations, and an adversarial service exhausts the
cap with the reported failure `iterationCapExceeded`, never a silent
return (spec-modelled: the loop implementation is not among the
repository sources; modelled from §4.2 with its design-required cap). -/
theorem reasoning_loop_cap_terminates_and_reports
    (svc : List AgentMessage → SvcResponse) (dispatch : ToolRequest → ToolResult)
    (cap : Nat) (hist : List AgentMessage)
    (hadv : ∀ h, ∃ reqs, svc h = SvcResponse.toolCalls reqs) :
    (∀ (svc2 : List AgentMessage → SvcResponse) (d2 : ToolRequest → ToolResult)
       (c2 : Nat) (h2 : List AgentMessage), loopServiceCalls svc2 d2 c2 h2 ≤ c2) ∧
    runReasoningLoop svc dispatch cap hist = Except.error LoopFailure.iterationCapExceeded := by
  constructor
  · intro svc2 d2 c2
    induction c2 with
    | zero => intro h2; simp [loopServiceCalls]
    | succ n ih =>
      intro h2
      cases h : svc2 h2 with
      | finalAnswer t => simp [loopServiceCalls, h]
      | toolCalls reqs =>
        have := ih (h2 ++ reqs.map (fun r => ⟨AgentRole.tool, (d2 r).content⟩))
        simp only [loopServiceCalls, h]
        omega
  · induction cap generalizing hist with
    | zero => rfl
    | succ n ih =>
      obtain ⟨reqs, hr⟩ := hadv hist
      unfold runReasoningLoop
      rw [hr]
      exact ih _

/-- Witness for C3: a concrete adversarial service against cap 3. -/
theorem reasoning_loop_cap_witness :
    (∀ h : List AgentMessage,
       ∃ reqs, (fun _ : List AgentMessage =>
         SvcResponse.toolCalls [⟨"get_company_website_information", "\x7b\x7d"⟩]) h
           = SvcResponse.toolCalls reqs) ∧
    runReasoningLoop
      (fun _ => SvcResponse.toolCalls [⟨"get_company_website_information", "\x7b\x7d"⟩])
      (fun _ => ⟨"", false⟩) 3 []
      = Except.error LoopFailure.iterationCapExceeded := by
  refine ⟨fun h => ⟨_, rfl⟩, ?_⟩
  exact (reasoning_loop_cap_terminates_and_reports _ _ 3 [] (fun h => ⟨_, rfl⟩)).2

/-- C4: a fetch that raises (network failure, timeout) or returns a
non-2xx status makes the website content tool return `None`; the
`RequestException` is caught inside the tool, so nothing escapes to the
loop (the embedding is a total function into `Option`). -/
theorem website_tool_failure_returns_none
    (soupGetText : String → String) (fetched : FetchOutcome)
    (h : fetched = FetchOutcome.exn ∨
         ∃ st tx, fetched = FetchOutcome.ok st tx ∧ ¬(200 ≤ st ∧ st < 300)) :
    get_company_website_information soupGetText fetched = none := by
  rcases h with h | ⟨st, tx, rfl, hst⟩
  · subst h; rfl
  · simp only [get_company_website_information]
    rw [if_neg]
    omega

/-- Witness for C4: a 404 response yields `None`. -/
theorem website_tool_failure_witness :
    ((FetchOutcome.ok 404 "x") = FetchOutcome.exn ∨
     ∃ st tx, (FetchOutcome.ok 404 "x") = FetchOutcome.ok st tx ∧ ¬(200 ≤ st ∧ st < 300)) ∧
    get_company_website_information (fun s => s) (FetchOutcome.ok 404 "x") = none := by
  refine ⟨Or.inr ⟨404, "x", rfl, by omega⟩, ?_⟩
  exact website_tool_failure_returns_none _ _ (Or.inr ⟨404, "x", rfl, by omega⟩)

/-- C5: a scoring-stage model output in which the brace scan finds no
span is logged ("No JSON found in the string.") and dropped: the run ends
in `noJsonLogged` and nothing is published. -/
theorem scoring_missing_span_drops (lead_details : Json) (modelOutput : String)
    (h : jsonSpan modelOutput = none) :
    LeadScoring.start_agent_flow lead_details modelOutput = ScoringOutcome.noJsonLogged := by
  unfold LeadScoring.start_agent_flow
  rw [h]

/-- Witness for C5: an output with no brace pair is dropped. -/
theorem scoring_missing_span_witness :
    jsonSpan "The lead data is incomplete; no structured result was produced." = none ∧
    LeadScoring.start_agent_flow (Json.obj [])
      "The lead data is incomplete; no structured result was produced."
      = ScoringOutcome.noJsonLogged := by
  refine ⟨rfl, ?_⟩
  exact scoring_missing_span_drops _ _ rfl

/-- C10: when the greedy first-brace-to-last-brace span is not valid
JSON, `json.loads` raises and the exception escapes the detached task
uncaught: the run ends in `uncaughtException`, with nothing published and
no failure record. -/
theorem scoring_invalid_span_uncaught (lead_details : Json) (modelOutput sp : String)
    (h1 : jsonSpan modelOutput = some sp) (h2 : json_loads sp = none) :
    LeadScoring.start_agent_flow lead_details modelOutput = ScoringOutcome.uncaughtException := by
  unfold LeadScoring.start_agent_flow
  simp only [h1, h2]

/-- Witness for C10: a stray closing brace after the object widens the
greedy match into non-JSON text, and the run dies uncaught. -/
theorem scoring_invalid_span_witness :
    jsonSpan "\x7b\"score\": 55\x7d with a stray brace \x7d"
      = some "\x7b\"score\": 55\x7d with a stray brace \x7d" ∧
    json_loads "\x7b\"score\": 55\x7d with a stray brace \x7d" = none ∧
    LeadScoring.start_agent_flow Json.null "\x7b\"score\": 55\x7d with a stray brace \x7d"
      = ScoringOutcome.uncaughtException := by
  refine ⟨rfl, rfl, ?_⟩
  exact scoring_invalid_span_uncaught _ _ _ rfl rfl

/-- C2 counterexample: the specification's `"score": "not-a-number"`
scenario. The extracted object violates the `ScoreResult` schema, yet the
stage publishes it: `start_agent_flow` performs no schema validation
between `json.loads` and `produce`. -/
theorem scoring_schema_violation_published_counterexample :
    LeadScoring.start_agent_flow (Json.obj []) notANumOutput =
      ScoringOutcome.published LEAD_SCORING_AGENT_OUTPUT_TOPIC
        (Json.obj [("lead_evaluation", notANumEvaluation), ("lead_data", Json.obj [])]) ∧
    scoreResultValid notANumEvaluation = false := by
  exact ⟨rfl, rfl⟩

/-- C2 amended: a scoring-stage output whose extracted span parses as
JSON is published even when the value violates the `ScoreResult` schema;
extraction only fails to publish when the span is missing or not valid
JSON. -/
theorem scoring_publishes_schema_violations (lead_details : Json) (modelOutput sp : String)
    (v : Json) (h1 : jsonSpan modelOutput = some sp) (h2 : json_loads sp = some v)
    (_h3 : scoreResultValid v = false) :
    LeadScoring.start_agent_flow lead_details modelOutput =
      ScoringOutcome.published LEAD_SCORING_AGENT_OUTPUT_TOPIC
        (Json.obj [("lead_evaluation", v), ("lead_data", lead_details)]) := by
  unfold LeadScoring.start_agent_flow
  simp only [h1, h2, produce]

/-- Witness for the amended C2, at the `"not-a-number"` output. -/
theorem scoring_publishes_schema_violations_witness :
    jsonSpan notANumOutput = some notANumOutput ∧
    json_loads notANumOutput = some notANumEvaluation ∧
    scoreResultValid notANumEvaluation = false ∧
    LeadScoring.start_agent_flow Json.null notANumOutput =
      ScoringOutcome.published LEAD_SCORING_AGENT_OUTPUT_TOPIC
        (Json.obj [("lead_evaluation", notANumEvaluation), ("lead_data", Json.null)]) := by
  refine ⟨rfl, rfl, rfl, ?_⟩
  exact scoring_publishes_schema_violations _ _ _ _ rfl rfl rfl

/-- C7: a completed ingestion run publishes exactly
`(content, lead_data)` on the ingestion-output topic, and a completed
scoring run publishes exactly `(lead_evaluation, lead_data)` on the
scoring-output topic; in both envelopes `lead_data` is the lead record
the stage received, unchanged. -/
theorem stage_envelopes_exact_shape :
    (∀ (lead_details : Json) (modelOutput : String),
       LeadIngestion.start_agent_flow lead_details modelOutput =
         ⟨LEAD_INGESTION_AGENT_OUTPUT_TOPIC,
          Json.obj [("content", Json.str modelOutput), ("lead_data", lead_details)]⟩) ∧
    (∀ (lead_details : Json) (modelOutput : String) (topic : String) (payload : Json),
       LeadScoring.start_agent_flow lead_details modelOutput
         = ScoringOutcome.published topic payload →
       topic = LEAD_SCORING_AGENT_OUTPUT_TOPIC ∧
       ∃ lead_evaluation,
         payload = Json.obj [("lead_evaluation", lead_evaluation), ("lead_data", lead_details)]) := by
  constructor
  · intro l m
    rfl
  · intro l m t p h
    unfold LeadScoring.start_agent_flow at h
    cases h1 : jsonSpan m with
    | none => simp only [h1] at h; cases h
    | some sp =>
      simp only [h1] at h
      cases h2 : json_loads sp with
      | none => simp only [h2] at h; cases h
      | some v =>
        simp only [h2, produce] at h
        injection h with ht hp
        exact ⟨ht.symm, v, hp.symm⟩

/-- Witness for C7's scoring side: a concrete published envelope. -/
theorem stage_envelopes_witness :
    LeadScoring.start_agent_flow (Json.str "L") "\x7b\"score\": 70\x7d"
      = ScoringOutcome.published LEAD_SCORING_AGENT_OUTPUT_TOPIC
          (Json.obj [("lead_evaluation", Json.obj [("score", Json.num 70)]),
                     ("lead_data", Json.str "L")]) ∧
    (LEAD_SCORING_AGENT_OUTPUT_TOPIC = LEAD_SCORING_AGENT_OUTPUT_TOPIC ∧
     ∃ lead_evaluation,
       Json.obj [("lead_evaluation", Json.obj [("score", Json.num 70)]),
                 ("lead_data", Json.str "L")]
         = Json.obj [("lead_evaluation", lead_evaluation), ("lead_data", Json.str "L")]) := by
  refine ⟨rfl, ?_⟩
  exact stage_envelopes_exact_shape.2 (Json.str "L") "\x7b\"score\": 70\x7d" _ _ rfl

/-- C8: every request a trigger endpoint accepts is answered with the
fixed plain-text "... Agent Started" acknowledgement and status 200; the
detached tasks are only spawned, so their later success or failure cannot
influence the already-determined response. -/
theorem trigger_endpoints_ack_started
    (p1 p2 : Bool) (data1 data2 : List (List (String × Json)))
    (r1 : HttpResp) (ts1 : List (Json × Json)) (r2 : HttpResp) (ts2 : List Json)
    (hs : lead_scoring_agent p1 data1 = some (r1, ts1))
    (hi : lead_ingestion_agent p2 data2 = some (r2, ts2)) :
    r1 = ⟨"Lead Scoring Agent Started", "text/plain", 200⟩ ∧
    r2 = ⟨"Lead Ingestion Agent Started", "text/plain", 200⟩ := by
  constructor
  · cases p1 with
    | true =>
      cases hm : data1.mapM scoringItemTask with
      | none => unfold lead_scoring_agent at hs; rw [hm] at hs; simp at hs
      | some tasks =>
        unfold lead_scoring_agent at hs; rw [hm] at hs; simp at hs
        exact hs.1.symm
    | false =>
      obtain ⟨tk, htask⟩ : ∃ t, scoringItemTask scoringTestItem = some t := ⟨_, rfl⟩
      unfold lead_scoring_agent at hs; rw [htask] at hs; simp at hs
      exact hs.1.symm
  · cases p2 with
    | true =>
      cases hm : data2.mapM ingestionItemOid with
      | none => unfold lead_ingestion_agent at hi; rw [hm] at hi; simp at hi
      | some oids =>
        unfold lead_ingestion_agent at hi; rw [hm] at hi; simp at hi
        exact hi.1.symm
    | false =>
      unfold lead_ingestion_agent at hi; simp at hi
      exact hi.1.symm

/-- Witness for C8, at one accepted request per endpoint. -/
theorem trigger_endpoints_ack_witness :
    lead_scoring_agent true [] = some (⟨"Lead Scoring Agent Started", "text/plain", 200⟩, []) ∧
    lead_ingestion_agent true [] = some (⟨"Lead Ingestion Agent Started", "text/plain", 200⟩, []) ∧
    (⟨"Lead Scoring Agent Started", "text/plain", 200⟩ : HttpResp)
      = ⟨"Lead Scoring Agent Started", "text/plain", 200⟩ ∧
    (⟨"Lead Ingestion Agent Started", "text/plain", 200⟩ : HttpResp)
      = ⟨"Lead Ingestion Agent Started", "text/plain", 200⟩ := by
  refine ⟨rfl, rfl, ?_⟩
  exact trigger_endpoints_ack_started true true [] [] _ _ _ _ rfl rfl

/-- C9: a POST to the lead-ingestion trigger endpoint starts no agent
flow - its per-item loop only reads an identifier - so nothing is ever
published for any posted item; an ingestion flow starts only on the
non-POST local-testing branch, with the hard-coded lead. -/
theorem ingestion_post_starts_nothing :
    (∀ (data : List (List (String × Json))) (r : HttpResp) (ts : List Json),
       lead_ingestion_agent true data = some (r, ts) → ts = []) ∧
    (∀ data : List (List (String × Json)),
       lead_ingestion_agent false data =
         some (⟨"Lead Ingestion Agent Started", "text/plain", 200⟩, [ingestionTestLead])) := by
  constructor
  · intro data r ts h
    cases hm : data.mapM ingestionItemOid with
    | none => unfold lead_ingestion_agent at h; rw [hm] at h; simp at h
    | some oids =>
      unfold lead_ingestion_agent at h; rw [hm] at h; simp at h
      exact h.2
  · intro data
    rfl

/-- Witness for C9, at a concrete change-event POST body. -/
theorem ingestion_post_starts_nothing_witness :
    lead_ingestion_agent true [[("fullDocument", Json.obj [("_id", Json.str "abc123")])]]
      = some (⟨"Lead Ingestion Agent Started", "text/plain", 200⟩, []) ∧
    ([] : List Json) = [] := by
  refine ⟨rfl, ?_⟩
  exact ingestion_post_starts_nothing.1
    [[("fullDocument", Json.obj [("_id", Json.str "abc123")])]] _ _ rfl

/-! ## Line structure of `remove_empty_lines` -/

theorem splitLinesCh_ne_nil (cs : List Char) : splitLinesCh cs ≠ [] := by
  cases cs with
  | nil => simp [splitLinesCh]
  | cons c cs =>
    rw [splitLinesCh]
    cases splitLinesCh cs with
    | nil => simp
    | cons l ls => by_cases h : c = '\n' <;> simp [h]

theorem mem_splitLinesCh_no_newline (cs : List Char) :
    ∀ l ∈ splitLinesCh cs, '\n' ∉ l := by
  induction cs with
  | nil =>
    intro l hl
    simp only [splitLinesCh, List.mem_singleton] at hl
    subst hl; simp
  | cons c cs ih =>
    intro l hl
    rw [splitLinesCh] at hl
    cases h : splitLinesCh cs with
    | nil => exact absurd h (splitLinesCh_ne_nil cs)
    | cons p ps =>
      rw [h] at hl
      rw [h] at ih
      dsimp only at hl
      split at hl
      · rcases List.mem_cons.mp hl with rfl | hl2
        · simp
        · exact ih l hl2
      · next hcne =>
        rcases List.mem_cons.mp hl with rfl | hl2
        · intro hmem
          rcases List.mem_cons.mp hmem with he | hmem2
          · exact hcne he.symm
          · exact ih p (List.mem_cons_self p ps) hmem2
        · exact ih l (List.mem_cons_of_mem p hl2)

theorem splitLinesCh_of_no_newline (l : List Char) (h : '\n' ∉ l) :
    splitLinesCh l = [l] := by
  induction l with
  | nil => rfl
  | cons c cs ih =>
    have hc : c ≠ '\n' := fun e => h (by simp [e])
    have hcs : '\n' ∉ cs := fun e => h (by simp [e])
    rw [splitLinesCh, ih hcs]
    simp [hc]

theorem splitLinesCh_append_newline (l r : List Char) (h : '\n' ∉ l) :
    splitLinesCh (l ++ '\n' :: r) = l :: splitLinesCh r := by
  induction l with
  | nil =>
    simp only [List.nil_append]
    rw [splitLinesCh]
    cases hs : splitLinesCh r with
    | nil => exact absurd hs (splitLinesCh_ne_nil r)
    | cons p ps => simp
  | cons c cs ih =>
    have hc : c ≠ '\n' := fun e => h (by simp [e])
    have hcs : '\n' ∉ cs := fun e => h (by simp [e])
    simp only [List.cons_append]
    rw [splitLinesCh, ih hcs]
    simp [hc]

theorem splitLinesCh_join (ls : List (List Char)) (hne : ls ≠ [])
    (h : ∀ l ∈ ls, '\n' ∉ l) : splitLinesCh (joinLinesCh ls) = ls := by
  induction ls with
  | nil => exact absurd rfl hne
  | cons l ls ih =>
    cases ls with
    | nil => exact splitLinesCh_of_no_newline l (h l (by simp))
    | cons l2 ls2 =>
      rw [joinLinesCh, splitLinesCh_append_newline _ _ (h l (by simp)),
          ih (by simp) (fun x hx => h x (by simp [hx]))]

theorem mem_pySplitlines (cs l : List Char) (h : l ∈ pySplitlines cs) :
    l ∈ splitLinesCh cs := by
  unfold pySplitlines at h
  cases cs with
  | nil => simp at h
  | cons c cs' =>
    dsimp only at h
    split at h
    · exact (List.dropLast_sublist _).subset h
    · exact h

theorem joinLinesCh_cons_ne_nil (l0 : List Char) (ls : List (List Char)) (h : l0 ≠ []) :
    joinLinesCh (l0 :: ls) ≠ [] := by
  cases ls with
  | nil => exact h
  | cons l2 ls2 => simp [joinLinesCh]

/-- Splitting the newline-join of a list of nonempty, newline-free lines
gives back exactly that list, under Python's `splitlines` semantics. -/
theorem pySplitlines_join (ls : List (List Char))
    (hne_line : ∀ l ∈ ls, l ≠ [])
    (hnn : ∀ l ∈ ls, '\n' ∉ l) :
    pySplitlines (joinLinesCh ls) = ls := by
  cases ls with
  | nil => rfl
  | cons l0 ls0 =>
    have hne : (l0 :: ls0 : List (List Char)) ≠ [] := by simp
    have hsplit : splitLinesCh (joinLinesCh (l0 :: ls0)) = l0 :: ls0 :=
      splitLinesCh_join _ hne hnn
    have hjne : joinLinesCh (l0 :: ls0) ≠ [] :=
      joinLinesCh_cons_ne_nil _ _ (hne_line l0 (by simp))
    obtain ⟨j0, js, hj⟩ : ∃ a as, joinLinesCh (l0 :: ls0) = a :: as := by
      cases hcase : joinLinesCh (l0 :: ls0) with
      | nil => exact absurd hcase hjne
      | cons a as => exact ⟨a, as, rfl⟩
    rw [hj]
    unfold pySplitlines
    dsimp only
    rw [← hj, hsplit]
    have hcond : ¬(l0 :: ls0 : List (List Char)).getLast? = some [] := by
      intro hlast
      have hmem := List.getLast_mem hne
      rw [List.getLast?_eq_getLast _ hne] at hlast
      have heq : (l0 :: ls0).getLast hne = [] := by injection hlast
      exact hne_line _ hmem heq
    rw [if_neg hcond]

/-- The output of `remove_empty_lines` has no blank line: every line of
the result contains a non-whitespace character. -/
theorem remove_empty_lines_all_nonblank (text : String) :
    linesAllNonBlank (remove_empty_lines text) = true := by
  unfold linesAllNonBlank remove_empty_lines
  have hdata : ∀ l : List Char, (String.mk l).data = l := fun _ => rfl
  rw [hdata]
  rw [pySplitlines_join]
  · rw [List.all_eq_true]
    intro l hl
    exact (List.mem_filter.mp hl).2
  · intro l hl he
    have h2 := (List.mem_filter.mp hl).2
    rw [he] at h2
    simp at h2
  · intro l hl
    exact mem_splitLinesCh_no_newline _ l (mem_pySplitlines _ _ (List.mem_filter.mp hl).1)

/-- C6 counterexample: a 2xx status other than exactly 200. The source
compares `response.status_code == 200`, so a 201 response yields `None`
instead of the page's visible text. -/
theorem website_tool_2xx_counterexample :
    (200 ≤ 201 ∧ 201 < 300) ∧
    get_company_website_information (fun s => s)
      (FetchOutcome.ok 201 "Acme Analytics homepage") = none := by
  exact ⟨by omega, rfl⟩

/-- C6 amended: a fetch with status exactly 200 (not any 2xx) makes the
website tool return the visible text - the BeautifulSoup conversion of
the body - with blank lines removed, and every line of the returned
string contains a non-whitespace character. -/
theorem website_tool_200_returns_cleaned_text (soupGetText : String → String)
    (st : Nat) (body : String) (h : st = 200) :
    get_company_website_information soupGetText (FetchOutcome.ok st body)
      = some (remove_empty_lines (soupGetText body)) ∧
    linesAllNonBlank (remove_empty_lines (soupGetText body)) = true := by
  subst h
  exact ⟨rfl, remove_empty_lines_all_nonblank _⟩

/-- Witness for the amended C6: a concrete page whose visible text has
blank and whitespace-only lines. -/
theorem website_tool_200_witness :
    (200 = 200) ∧
    get_company_website_information (fun _ => "Tiger Analytics\n\n  \nReal-time data")
      (FetchOutcome.ok 200 "<html>irrelevant</html>")
      = some (remove_empty_lines "Tiger Analytics\n\n  \nReal-time data") ∧
    linesAllNonBlank (remove_empty_lines "Tiger Analytics\n\n  \nReal-time data") = true := by
  refine ⟨rfl, ?_⟩
  exact website_tool_200_returns_cleaned_text (fun _ => "Tiger Analytics\n\n  \nReal-time data")
    200 "<html>irrelevant</html>" rfl

/-! ## Parser lemmas for serialised score objects -/

theorem isDigitC_ne (d c0 : Char) (h : isDigitC d = true) (hc : isDigitC c0 = false) :
    (d == c0) = false := by
  cases hval : d == c0 with
  | false => rfl
  | true =>
    have he : d = c0 := eq_of_beq hval
    subst he
    rw [h] at hc
    exact Bool.noConfusion hc

theorem isWsChar_of_digit (d : Char) (h : isDigitC d = true) : isWsChar d = false := by
  unfold isDigitC at h
  rw [Bool.and_eq_true] at h
  have h1 := of_decide_eq_true h.1
  have h2 := of_decide_eq_true h.2
  unfold isWsChar
  simp only [Bool.or_eq_false_iff, decide_eq_false_iff_not]
  omega

theorem exists_pred_succ (f : Nat) (h : 0 < f) : ∃ g, f = g + 1 :=
  ⟨f - 1, by omega⟩

theorem parseStrChars_plain (l rest : List Char) (h : l.all plainChar = true) :
    parseStrChars (l ++ '"' :: rest) = some (l, rest) := by
  induction l with
  | nil =>
    rw [List.nil_append, parseStrChars.eq_def]
    dsimp only
    rw [if_pos (by decide)]
  | cons c cs ih =>
    rw [List.all_cons, Bool.and_eq_true] at h
    obtain ⟨hc, hcs⟩ := h
    rw [plainChar, Bool.and_eq_true, Bool.and_eq_true] at hc
    obtain ⟨⟨h1, h2⟩, h3⟩ := hc
    have h1' : (c == '"') = false := beq_eq_false_iff_ne.mpr (bne_iff_ne.mp h1)
    have h2' : (c == '\\') = false := beq_eq_false_iff_ne.mpr (bne_iff_ne.mp h2)
    have h3' : ¬(c.toNat < 32) := by
      have := of_decide_eq_true h3
      omega
    rw [List.cons_append, parseStrChars.eq_def]
    dsimp only
    rw [if_neg (by simp [h1']), if_neg (by simp [h2']), if_neg h3']
    rw [ih hcs]

theorem span_digits_append (ds rest : List Char) (hds : ds.all isDigitC = true)
    (hrest : ∀ c, rest.head? = some c → isDigitC c = false) :
    (ds ++ rest).takeWhile isDigitC = ds ∧ (ds ++ rest).dropWhile isDigitC = rest := by
  induction ds with
  | nil =>
    cases rest with
    | nil => exact ⟨rfl, rfl⟩
    | cons c cs =>
      have hc := hrest c rfl
      refine ⟨?_, ?_⟩ <;> simp [List.takeWhile_cons, List.dropWhile_cons, hc]
  | cons d ds ih =>
    rw [List.all_cons, Bool.and_eq_true] at hds
    obtain ⟨hd, hds'⟩ := hds
    obtain ⟨iht, ihd⟩ := ih hds'
    constructor
    · rw [List.cons_append, List.takeWhile_cons, hd]
      simp [iht]
    · rw [List.cons_append, List.dropWhile_cons, hd]
      simp [ihd]

/-- Ground facts about the decimal rendering of scores in [0, 100]. -/
theorem natToChars_le100_facts : ∀ s, s ≤ 100 →
    ((natToChars s).all isDigitC = true ∧ natToChars s ≠ [] ∧
     (1 < (natToChars s).length && (natToChars s).headD ' ' == '0') = false ∧
     digitsToNat (natToChars s) = s) := by decide

theorem parseDigits_natToChars (s : Nat) (rest : List Char) (hs : s ≤ 100)
    (hrest : ∀ c, rest.head? = some c →
       (isDigitC c = false ∧ (c == '.') = false ∧ (c == 'e') = false ∧ (c == 'E') = false)) :
    parseDigits (natToChars s ++ rest) = some (s, rest) := by
  obtain ⟨hall, hne, hlz, hval⟩ := natToChars_le100_facts s hs
  obtain ⟨htake, hdrop⟩ := span_digits_append (natToChars s) rest hall
    (fun c hc => (hrest c hc).1)
  simp only [parseDigits]
  rw [htake, hdrop]
  rw [if_neg hne, if_neg (by intro hx; rw [hlz] at hx; exact Bool.noConfusion hx)]
  cases hr : rest with
  | nil =>
    dsimp only
    rw [hval]
  | cons c cs =>
    obtain ⟨-, hdot, he, hE⟩ := hrest c (by rw [hr]; rfl)
    dsimp only
    rw [if_neg (by simp [hdot, he, hE]), hval]

theorem parseValue_string (f : Nat) (l rest : List Char) (h : l.all plainChar = true) :
    parseValue (f + 1) ('"' :: (l ++ '"' :: rest)) = some (Json.str (String.mk l), rest) := by
  rw [parseValue]
  rw [skipWs, if_neg (by decide)]
  dsimp only
  rw [if_neg (by decide), if_neg (by decide), if_pos (by decide)]
  rw [parseStrChars_plain l rest h]

theorem parseElems_strings (tps : List String) (f : Nat) (rest : List Char)
    (hne : tps ≠ []) (hpl : ∀ t ∈ tps, plainStr t = true) (hf : tps.length ≤ f) :
    parseElems (f + 1) (serTpListCh tps ++ ']' :: rest)
      = some (tps.map Json.str, rest) := by
  induction tps generalizing f rest with
  | nil => exact absurd rfl hne
  | cons t ts ih =>
    obtain ⟨f2, rfl⟩ := exists_pred_succ f (Nat.lt_of_lt_of_le (Nat.succ_pos ts.length) hf)
    cases ts with
    | nil =>
      rw [serTpListCh]
      have hshape : ('"' :: t.data ++ ['"']) ++ ']' :: rest
          = '"' :: (t.data ++ '"' :: (']' :: rest)) := by simp
      rw [hshape, parseElems]
      rw [parseValue_string f2 t.data (']' :: rest) (hpl t (by simp))]
      dsimp only
      rw [skipWs, if_neg (by decide)]
      dsimp only
      rw [if_neg (by decide), if_pos (by decide)]
      rfl
    | cons t2 ts2 =>
      rw [serTpListCh]
      have hshape : ('"' :: t.data ++ '"' :: ',' :: serTpListCh (t2 :: ts2)) ++ ']' :: rest
          = '"' :: (t.data ++ '"' :: (',' :: (serTpListCh (t2 :: ts2) ++ ']' :: rest))) := by
        simp
      rw [hshape, parseElems]
      rw [parseValue_string f2 t.data (',' :: (serTpListCh (t2 :: ts2) ++ ']' :: rest))
        (hpl t (by simp))]
      dsimp only
      rw [skipWs, if_neg (by decide)]
      dsimp only
      rw [if_pos (by decide)]
      rw [ih f2 rest (List.cons_ne_nil t2 ts2) (fun x hx => hpl x (List.mem_cons_of_mem t hx))
        (by simp only [List.length_cons] at hf ⊢; omega)]
      rfl
      exact fun h => List.cons_ne_nil t2 ts2 h

theorem parseStrChars_score_key (x : List Char) :
    parseStrChars ('s' :: 'c' :: 'o' :: 'r' :: 'e' :: '"' :: x)
      = some (['s', 'c', 'o', 'r', 'e'], x) :=
  parseStrChars_plain ['s', 'c', 'o', 'r', 'e'] x (by decide)

theorem parseStrChars_next_step_key (x : List Char) :
    parseStrChars ('n' :: 'e' :: 'x' :: 't' :: '_' :: 's' :: 't' :: 'e' :: 'p' :: '"' :: x)
      = some (['n', 'e', 'x', 't', '_', 's', 't', 'e', 'p'], x) :=
  parseStrChars_plain ['n', 'e', 'x', 't', '_', 's', 't', 'e', 'p'] x (by decide)

theorem parseStrChars_tp_key (x : List Char) :
    parseStrChars ('t' :: 'a' :: 'l' :: 'k' :: 'i' :: 'n' :: 'g' :: '_' :: 'p' :: 'o' :: 'i'
        :: 'n' :: 't' :: 's' :: '"' :: x)
      = some (['t', 'a', 'l', 'k', 'i', 'n', 'g', '_', 'p', 'o', 'i', 'n', 't', 's'], x) :=
  parseStrChars_plain ['t', 'a', 'l', 'k', 'i', 'n', 'g', '_', 'p', 'o', 'i', 'n', 't', 's'] x
    (by decide)

theorem parseValue_number_sp (f s : Nat) (rest : List Char) (hs : s ≤ 100)
    (hrest : ∀ c, rest.head? = some c →
       (isDigitC c = false ∧ (c == '.') = false ∧ (c == 'e') = false ∧ (c == 'E') = false)) :
    parseValue (f + 1) (' ' :: (natToChars s ++ rest)) = some (Json.num s, rest) := by
  obtain ⟨hall, hne, -, -⟩ := natToChars_le100_facts s hs
  obtain ⟨d, ds, hd⟩ : ∃ d ds, natToChars s = d :: ds := by
    cases hc : natToChars s with
    | nil => exact absurd hc hne
    | cons a as => exact ⟨a, as, rfl⟩
  have hdd : isDigitC d = true := by
    rw [hd, List.all_cons, Bool.and_eq_true] at hall
    exact hall.1
  rw [parseValue, skipWs, if_pos (by decide)]
  rw [hd, List.cons_append, skipWs, if_neg (by rw [isWsChar_of_digit d hdd]; exact fun hx => Bool.noConfusion hx)]
  dsimp only
  rw [isDigitC_ne d '\x7b' hdd (by decide), isDigitC_ne d '[' hdd (by decide),
      isDigitC_ne d '"' hdd (by decide), isDigitC_ne d 't' hdd (by decide),
      isDigitC_ne d 'f' hdd (by decide), isDigitC_ne d 'n' hdd (by decide),
      isDigitC_ne d '-' hdd (by decide)]
  rw [if_neg (by simp), if_neg (by simp), if_neg (by simp), if_neg (by simp),
      if_neg (by simp), if_neg (by simp), if_neg (by simp)]
  rw [if_pos hdd]
  rw [← List.cons_append, ← hd, parseDigits_natToChars s rest hs hrest]

theorem parseValue_string_sp (f : Nat) (l rest : List Char) (h : l.all plainChar = true) :
    parseValue (f + 1) (' ' :: '"' :: (l ++ '"' :: rest))
      = some (Json.str (String.mk l), rest) := by
  rw [parseValue, skipWs, if_pos (by decide), skipWs, if_neg (by decide)]
  dsimp only
  rw [if_neg (by decide), if_neg (by decide), if_pos (by decide)]
  rw [parseStrChars_plain l rest h]

theorem parseValue_array_sp (f : Nat) (tps : List String) (rest : List Char)
    (htne : tps ≠ []) (hpl : ∀ t ∈ tps, plainStr t = true) (hf : tps.length + 1 ≤ f) :
    parseValue (f + 1) (' ' :: '[' :: (serTpListCh tps ++ ']' :: rest))
      = some (Json.arr (tps.map Json.str), rest) := by
  obtain ⟨g, rfl⟩ := exists_pred_succ f (by omega)
  obtain ⟨t, ts, rfl⟩ : ∃ t ts, tps = t :: ts := by
    cases tps with
    | nil => exact absurd rfl htne
    | cons a as => exact ⟨a, as, rfl⟩
  obtain ⟨tail, htail⟩ : ∃ tail, serTpListCh (t :: ts) = '"' :: tail := by
    cases ts with
    | nil =>
      refine ⟨t.data ++ ['"'], ?_⟩
      rw [serTpListCh]
      simp
    | cons a b =>
      refine ⟨t.data ++ '"' :: ',' :: serTpListCh (a :: b), ?_⟩
      rw [serTpListCh]
      simp
      exact fun h => List.cons_ne_nil a b h
  rw [parseValue, skipWs, if_pos (by decide), skipWs, if_neg (by decide)]
  dsimp only
  rw [if_neg (by decide), if_pos (by decide)]
  rw [htail, List.cons_append, skipWs, if_neg (by decide)]
  dsimp only
  rw [if_neg (by decide)]
  rw [← List.cons_append, ← htail]
  rw [parseElems_strings (t :: ts) g rest (List.cons_ne_nil t ts) hpl
    (by simp only [List.length_cons] at hf ⊢; omega)]

theorem head_cons_digitfree (c0 : Char) (cs : List Char)
    (h1 : isDigitC c0 = false) (h2 : (c0 == '.') = false) (h3 : (c0 == 'e') = false)
    (h4 : (c0 == 'E') = false) :
    ∀ c, (c0 :: cs).head? = some c →
      (isDigitC c = false ∧ (c == '.') = false ∧ (c == 'e') = false ∧ (c == 'E') = false) := by
  intro c hc
  have he : c0 = c := by simpa using hc
  subst he
  exact ⟨h1, h2, h3, h4⟩

theorem parseValue_serScore (s : Nat) (ns : String) (tps : List String) (f : Nat)
    (rest : List Char) (hs : s ≤ 100) (hns : plainStr ns = true) (htne : tps ≠ [])
    (hpl : ∀ t ∈ tps, plainStr t = true) (hf : tps.length + 5 ≤ f) :
    parseValue (f + 1) (serScoreCh s ns tps ++ rest) = some (scoreObj s ns tps, rest) := by
  obtain ⟨f1, rfl⟩ := exists_pred_succ f (by omega)
  obtain ⟨f2, rfl⟩ := exists_pred_succ f1 (by omega)
  obtain ⟨f3, rfl⟩ := exists_pred_succ f2 (by omega)
  obtain ⟨f4, rfl⟩ := exists_pred_succ f3 (by omega)
  have hf4 : tps.length + 1 ≤ f4 := by omega
  have hshape : serScoreCh s ns tps ++ rest
      = '\x7b' :: '"' :: 's' :: 'c' :: 'o' :: 'r' :: 'e' :: '"' :: ':' :: ' '
        :: (natToChars s ++ (',' :: ' ' :: '"' :: 'n' :: 'e' :: 'x' :: 't' :: '_' :: 's'
        :: 't' :: 'e' :: 'p' :: '"' :: ':' :: ' ' :: '"' :: (ns.data ++ ('"' :: ',' :: ' '
        :: '"' :: 't' :: 'a' :: 'l' :: 'k' :: 'i' :: 'n' :: 'g' :: '_' :: 'p' :: 'o' :: 'i'
        :: 'n' :: 't' :: 's' :: '"' :: ':' :: ' ' :: '[' :: (serTpListCh tps
        ++ (']' :: '\x7d' :: rest)))))) := by
    simp [serScoreCh]
  rw [hshape]
  rw [parseValue, skipWs, if_neg (by decide)]
  dsimp only
  rw [if_pos (by decide)]
  rw [skipWs, if_neg (by decide)]
  dsimp only
  rw [if_neg (by decide)]
  rw [parseMembers, skipWs, if_neg (by decide)]
  dsimp only
  rw [if_pos (by decide)]
  rw [parseStrChars_score_key]
  dsimp only
  rw [skipWs, if_neg (by decide)]
  dsimp only
  rw [if_pos (by decide)]
  rw [parseValue_number_sp (f4 + 1 + 1) s _ hs
    (head_cons_digitfree ',' _ (by decide) (by decide) (by decide) (by decide))]
  dsimp only
  rw [skipWs, if_neg (by decide)]
  dsimp only
  rw [if_pos (by decide)]
  rw [parseMembers, skipWs, if_pos (by decide), skipWs, if_neg (by decide)]
  dsimp only
  rw [if_pos (by decide)]
  rw [parseStrChars_next_step_key]
  dsimp only
  rw [skipWs, if_neg (by decide)]
  dsimp only
  rw [if_pos (by decide)]
  rw [parseValue_string_sp (f4 + 1) ns.data _ hns]
  dsimp only
  rw [skipWs, if_neg (by decide)]
  dsimp only
  rw [if_pos (by decide)]
  rw [parseMembers, skipWs, if_pos (by decide), skipWs, if_neg (by decide)]
  dsimp only
  rw [if_pos (by decide)]
  rw [parseStrChars_tp_key]
  dsimp only
  rw [skipWs, if_neg (by decide)]
  dsimp only
  rw [if_pos (by decide)]
  rw [parseValue_array_sp f4 tps ('\x7d' :: rest) htne hpl hf4]
  dsimp only
  rw [skipWs, if_neg (by decide)]
  dsimp only
  rw [if_neg (by decide), if_pos (by decide)]
  rfl

theorem dropWhile_append_of_all (p : Char → Bool) (xs ys : List Char)
    (h : ∀ x ∈ xs, p x = true) : (xs ++ ys).dropWhile p = ys.dropWhile p := by
  induction xs with
  | nil => rfl
  | cons a as ih =>
    rw [List.cons_append, List.dropWhile_cons, h a (by simp)]
    exact ih (fun x hx => h x (by simp [hx]))

theorem upToLastRBrace_embedded (mid suf : List Char)
    (hsuf : ∀ c ∈ suf, (c != '\x7d') = true) :
    upToLastRBrace ('\x7b' :: (mid ++ '\x7d' :: suf)) = '\x7b' :: mid ++ ['\x7d'] := by
  unfold upToLastRBrace
  have hr : ('\x7b' :: (mid ++ '\x7d' :: suf)).reverse
      = suf.reverse ++ '\x7d' :: (mid.reverse ++ ['\x7b']) := by simp
  rw [hr]
  rw [dropWhile_append_of_all _ suf.reverse _ (fun c hc => hsuf c (List.mem_reverse.mp hc))]
  rw [List.dropWhile_cons, if_neg (by decide)]
  simp

theorem jsonSpanChars_embedded (pre mid suf : List Char)
    (hpre : ∀ c ∈ pre, (c != '\x7b') = true)
    (hsuf : ∀ c ∈ suf, (c != '\x7d') = true) :
    jsonSpanChars (pre ++ ('\x7b' :: mid ++ ['\x7d']) ++ suf)
      = some ('\x7b' :: mid ++ ['\x7d']) := by
  have hsh : pre ++ ('\x7b' :: mid ++ ['\x7d']) ++ suf
      = pre ++ ('\x7b' :: (mid ++ '\x7d' :: suf)) := by simp
  rw [hsh]
  unfold jsonSpanChars
  rw [dropWhile_append_of_all _ pre _ hpre]
  rw [List.dropWhile_cons, if_neg (by decide)]
  dsimp only
  rw [if_pos (by simp), upToLastRBrace_embedded mid suf hsuf]

theorem serTpListCh_length (tps : List String) : tps.length ≤ (serTpListCh tps).length := by
  induction tps with
  | nil => simp [serTpListCh]
  | cons t ts ih =>
    cases ts with
    | nil =>
      rw [serTpListCh]
      simp
    | cons a b =>
      rw [serTpListCh]
      · simp only [List.length_cons, List.length_append] at ih ⊢
        omega
      · exact fun h => List.cons_ne_nil a b h

theorem serScoreCh_shape (s : Nat) (ns : String) (tps : List String) :
    ∃ mid, serScoreCh s ns tps = '\x7b' :: mid ++ ['\x7d'] := by
  refine ⟨['"', 's', 'c', 'o', 'r', 'e', '"', ':', ' '] ++ natToChars s
    ++ [',', ' ', '"', 'n', 'e', 'x', 't', '_', 's', 't', 'e', 'p', '"', ':', ' ', '"']
    ++ ns.data
    ++ ['"', ',', ' ', '"', 't', 'a', 'l', 'k', 'i', 'n', 'g', '_', 'p', 'o', 'i', 'n', 't',
         's', '"', ':', ' ', '['] ++ serTpListCh tps ++ [']'], ?_⟩
  simp [serScoreCh]

theorem parseValue_serScore_any (s : Nat) (ns : String) (tps : List String) (F : Nat)
    (rest : List Char) (hs : s ≤ 100) (hns : plainStr ns = true) (htne : tps ≠ [])
    (hpl : ∀ t ∈ tps, plainStr t = true) (hF : tps.length + 6 ≤ F) :
    parseValue F (serScoreCh s ns tps ++ rest) = some (scoreObj s ns tps, rest) := by
  obtain ⟨f, rfl⟩ := exists_pred_succ F (by omega)
  exact parseValue_serScore s ns tps f rest hs hns htne hpl (by omega)

theorem json_loads_serScore (s : Nat) (ns : String) (tps : List String)
    (hs : s ≤ 100) (hns : plainStr ns = true) (htne : tps ≠ [])
    (hpl : ∀ t ∈ tps, plainStr t = true) :
    json_loads (serScore s ns tps) = some (scoreObj s ns tps) := by
  unfold json_loads serScore
  have hdata : ∀ l : List Char, (String.mk l).data = l := fun _ => rfl
  rw [hdata]
  have hlen : tps.length + 6 ≤ 2 * (serScoreCh s ns tps).length + 2 := by
    have h1 := serTpListCh_length tps
    simp only [serScoreCh, List.length_append, List.length_cons, List.length_nil] at *
    omega
  rw [← List.append_nil (serScoreCh s ns tps)]
  rw [parseValue_serScore_any s ns tps _ [] hs hns htne hpl (by
    rw [List.append_nil]
    exact hlen)]
  rfl

/-- C1 counterexample: a scoring-stage output that contains a balanced
JSON object with valid score, next_step and talking_points fields,
followed by one more closing brace in the trailing text. The extractor
does not locate the first balanced span: the greedy
first-brace-to-last-brace match widens past the object, `json.loads`
raises, and the run dies instead of recovering the embedded object. -/
theorem scoring_first_balanced_span_counterexample :
    LeadScoring.start_agent_flow Json.null
        ("prefix text " ++ serScore 80 "Actively Engage" ["a", "b", "c"] ++ " suffix\x7d")
      = ScoringOutcome.uncaughtException ∧
    scoreResultValid (scoreObj 80 "Actively Engage" ["a", "b", "c"]) = true := by
  exact ⟨rfl, rfl⟩

/-- C1 amended: for every scoring-stage model output of the form
`pre ++ serialised-object ++ suf` in which the greedy span is exactly the
embedded object - no opening brace before it and no closing brace after
it - extraction recovers the `ScoreResult` equal to the embedded object
and publishes it; in particular the specification's worked scenario
(prefix text, the score-80 object, suffix) yields exactly that object.
Embedded strings are quantified over escape-free characters, the subset
the serialised layout uses. -/
theorem scoring_extracts_embedded_score_object
    (lead_details : Json) (pre suf : String) (s : Nat) (ns : String) (tps : List String)
    (hs : s ≤ 100) (hns : ns = "Nurture" ∨ ns = "Actively Engage") (htl : 3 ≤ tps.length)
    (hpl : ∀ t ∈ tps, plainStr t = true)
    (hpre : ∀ c ∈ pre.data, (c != '\x7b') = true)
    (hsuf : ∀ c ∈ suf.data, (c != '\x7d') = true) :
    LeadScoring.start_agent_flow lead_details (pre ++ serScore s ns tps ++ suf)
      = ScoringOutcome.published LEAD_SCORING_AGENT_OUTPUT_TOPIC
          (Json.obj [("lead_evaluation", scoreObj s ns tps), ("lead_data", lead_details)]) := by
  have hnsp : plainStr ns = true := by rcases hns with rfl | rfl <;> decide
  have htne : tps ≠ [] := by
    intro h
    rw [h] at htl
    simp at htl
  obtain ⟨mid, hmid⟩ := serScoreCh_shape s ns tps
  have hspan : jsonSpan (pre ++ serScore s ns tps ++ suf) = some (serScore s ns tps) := by
    unfold jsonSpan
    have hdata : (pre ++ serScore s ns tps ++ suf).data
        = pre.data ++ ('\x7b' :: mid ++ ['\x7d']) ++ suf.data := by
      rw [String.data_append, String.data_append]
      rw [show (serScore s ns tps).data = serScoreCh s ns tps from rfl, hmid]
    rw [hdata, jsonSpanChars_embedded pre.data mid suf.data hpre hsuf]
    dsimp only
    rw [← hmid]
    rfl
  unfold LeadScoring.start_agent_flow
  rw [hspan]
  dsimp only
  rw [json_loads_serScore s ns tps hs hnsp htne hpl]
  rfl

/-- Witness for the amended C1: the specification's worked scenario. The
serialiser reproduces the scenario text exactly, and the stage publishes
exactly the embedded object. -/
theorem scoring_extracts_embedded_score_object_witness :
    serScore 80 "Actively Engage" ["a", "b", "c"]
      = "\x7b\"score\": 80, \"next_step\": \"Actively Engage\", \"talking_points\": [\"a\",\"b\",\"c\"]\x7d" ∧
    (3 ≤ (["a", "b", "c"] : List String).length) ∧
    LeadScoring.start_agent_flow Json.null
        ("prefix text " ++ serScore 80 "Actively Engage" ["a", "b", "c"] ++ " suffix")
      = ScoringOutcome.published LEAD_SCORING_AGENT_OUTPUT_TOPIC
          (Json.obj [("lead_evaluation", scoreObj 80 "Actively Engage" ["a", "b", "c"]),
                     ("lead_data", Json.null)]) := by
  refine ⟨rfl, by decide, ?_⟩
  exact scoring_extracts_embedded_score_object Json.null "prefix text " " suffix" 80
    "Actively Engage" ["a", "b", "c"] (by decide) (Or.inr rfl) (by decide) (by decide)
    (by decide) (by decide)
